import Mathlib

/-!
Shallow embedding of the clawfarm runtime core, translated from
`crates/krunclaw-runtime/src/image.rs`, `crates/krunclaw-runtime/src/run.rs`
and `crates/libkrun-sys/src/lib.rs`.  Filesystem and native-library effects
are modelled by explicit oracles; machine integers carry no arithmetic here,
so ports and sizes are plain `Nat`.
-/

namespace Clawfarm

/-! ### ASCII helpers (models of Rust `char`/`str` ASCII methods) -/

/-- Model of Rust `char::to_ascii_lowercase`. -/
def asciiLowerChar (c : Char) : Char :=
  if 'A' ≤ c ∧ c ≤ 'Z' then Char.ofNat (c.toNat + 32) else c

/-- Model of Rust `str::to_ascii_lowercase`. -/
def toAsciiLower (s : String) : String :=
  String.mk (s.data.map asciiLowerChar)

/-- Model of Rust `str::eq_ignore_ascii_case`. -/
def eqIgnoreAsciiCase (a b : String) : Bool :=
  toAsciiLower a == toAsciiLower b

/-- Model of Rust `str::ends_with`: the pattern is a suffix of the string. -/
def strEndsWith (s pat : String) : Bool :=
  pat.data.isSuffixOf s.data

/-- Characters kept verbatim by the image-name sanitizer in
`image_disk_path`: ASCII alphanumerics plus `-`, `_`, `.`. -/
def keepChar (c : Char) : Bool :=
  (('a' ≤ c && c ≤ 'z') || ('A' ≤ c && c ≤ 'Z') || ('0' ≤ c && c ≤ '9')
    || c == '-' || c == '_' || c == '.')

/-! ### image.rs : cache path resolution -/

/-- The sanitizing loop of `image_disk_path` (image.rs lines 46-57): every
character outside `[A-Za-z0-9_.-]` is replaced by `_`. -/
def sanitize (image : String) : String :=
  String.mk (image.data.map (fun c => if keepChar c then c else '_'))

/-- Model of Rust `str::trim(..).is_empty()`: true when every character is
whitespace. -/
def trimEmpty (s : String) : Bool :=
  s.data.all (fun c => c.isWhitespace)

/-- Model of `image_disk_path` (image.rs lines 41-59).  A filesystem path is a
list of segments; `cacheRoot` stands for `dirs::cache_dir()/krunclaw/images`.
`PathBuf::join` appends a segment. -/
def image_disk_path (cacheRoot : List String) (image : String) :
    Except String (List String) :=
  if trimEmpty image then .error "image name cannot be empty"
  else .ok (cacheRoot ++ [sanitize image, "disk.img"])

/-- Lexical normalization of a segment path: `.` is dropped, `..` pops the
previous segment.  Used to state what disk path a `..` segment resolves to. -/
def normalizePath (segs : List String) : List String :=
  segs.foldl
    (fun acc seg =>
      if seg = "." then acc
      else if seg = ".." then acc.dropLast
      else acc ++ [seg]) []

/-- `underRoot root p` holds when the normalized path `p` still starts with
the normalized `root` — i.e. the path did not escape the cache root. -/
def underRoot (root p : List String) : Bool :=
  (normalizePath p).take (normalizePath root).length == normalizePath root

/-! ### image.rs : architecture and source resolution -/

/-- Model of `ubuntu_suffix_for_arch` (image.rs lines 222-232). -/
def ubuntu_suffix_for_arch (arch : String) : Option String :=
  if arch = "x86_64" ∨ arch = "amd64" then some "amd64"
  else if arch = "aarch64" ∨ arch = "arm64" then some "arm64"
  else if arch = "riscv64" then some "riscv64"
  else if arch = "arm" ∨ arch = "armv7l" then some "armhf"
  else if arch = "s390x" then some "s390x"
  else if arch = "powerpc64le" ∨ arch = "ppc64le" then some "ppc64el"
  else none

/-- Model of the `ImageSource` struct (image.rs lines 30-34). -/
structure ImageSource where
  url : String
  sha256 : Option String
deriving DecidableEq, Repr

/-- Model of the `FetchConfig` struct (image.rs lines 20-28); the `disk`
override is not modelled (existence of the destination is an oracle input). -/
structure FetchConfig where
  image : String
  url : Option String
  ubuntu_date : Option String
  arch : Option String
  force : Bool
deriving Repr

/-- The sha256 constant baked in for the amd64 primary mirror. -/
def amd64Sha : String :=
  "2b5f90ffe8180def601c021c874e55d8303e8bcbfc66fee2b94414f43ac5eb1f"

/-- The sha256 constant baked in for the arm64 primary mirror. -/
def arm64Sha : String :=
  "a40713938d74aaec811f74cb1fa8bfcb535d22e26b2a0ca1cc90ad9db898feb9"

/-- URL of the dated primary mirror for a suffix (image.rs lines 193, 200). -/
def primaryUrl (suffix : String) : String :=
  "https://cloud-images.ubuntu.com/releases/noble/release-20251213/ubuntu-24.04-server-cloudimg-"
    ++ suffix ++ ".img"

/-- URL of the checksum-less latest-release mirror (image.rs lines 209-214). -/
def fallbackUrl (suffix : String) : String :=
  "https://cloud-images.ubuntu.com/releases/noble/release/ubuntu-24.04-server-cloudimg-"
    ++ suffix ++ ".img"

/-- URL built for an explicit dated release (image.rs lines 178-185). -/
def datedUrl (date suffix : String) : String :=
  "https://cloud-images.ubuntu.com/releases/noble/release-" ++ date
    ++ "/ubuntu-24.04-server-cloudimg-" ++ suffix ++ ".img"

/-- Model of `default_lima_ubuntu_sources_for_suffix` (image.rs lines
190-220): a checksummed primary exists only for `amd64` and `arm64`; the
fallback is always appended. -/
def default_lima_ubuntu_sources_for_suffix (suffix : String) : List ImageSource :=
  let primary : Option ImageSource :=
    if suffix = "amd64" then some ⟨primaryUrl "amd64", some amd64Sha⟩
    else if suffix = "arm64" then some ⟨primaryUrl "arm64", some arm64Sha⟩
    else none
  let fallback : ImageSource := ⟨fallbackUrl suffix, none⟩
  match primary with
  | some p => [p, fallback]
  | none => [fallback]

/-- Errors surfaced by the fetch pipeline, mirroring the `bail!`/context
sites of image.rs. -/
inductive FetchErr
  | emptyImage
  | alreadyExists
  | mkdirFailed
  | staleTempRemoveFailed
  | unsupportedArch (arch : String)
  | checksumMismatch (url expected actual : String)
  | removeDestFailed
  | renameFailed
  | allSourcesFailed (last : Option String)
deriving DecidableEq, Repr

/-- Model of `resolve_sources` (image.rs lines 163-188).  `hostArch` stands
for `std::env::consts::ARCH`. -/
def resolve_sources (hostArch : String) (cfg : FetchConfig) :
    Except FetchErr (List ImageSource) :=
  match cfg.url with
  | some custom => .ok [⟨custom, none⟩]
  | none =>
    let arch := cfg.arch.getD hostArch
    match ubuntu_suffix_for_arch arch with
    | none => .error (.unsupportedArch arch)
    | some suffix =>
      match cfg.ubuntu_date with
      | some date => .ok [⟨datedUrl date suffix, none⟩]
      | none => .ok (default_lima_ubuntu_sources_for_suffix suffix)

/-! ### image.rs : the fetch pipeline -/

/-- Result of one `download_to_path` call: transport failure with a message,
or success leaving an artifact whose sha256 digest is `digest`. -/
inductive DlResult
  | fail (msg : String)
  | ok (digest : String)
deriving Repr

/-- Filesystem / network oracle for one `fetch_ubuntu_image` invocation.
`dl n` is the outcome of the `n`-th download attempt. -/
structure FetchOracle where
  dl : Nat → DlResult
  mkdirOk : Bool
  staleRemoveOk : Bool
  removeDestOk : Bool
  renameOk : Bool

/-- Observable filesystem state threaded through the fetch model:
whether the temporary file and the canonical artifact exist, and how many
download attempts have been performed. -/
structure FetchSt where
  tempExists : Bool
  destExists : Bool
  downloads : Nat
deriving DecidableEq, Repr

/-- The install step of the success branch (image.rs lines 127-143): remove a
pre-existing artifact, then rename the temporary file into place. -/
def installArtifact (o : FetchOracle) (st : FetchSt) :
    Except FetchErr Unit × FetchSt :=
  if st.destExists && !o.removeDestOk then (.error .removeDestFailed, st)
  else
    let st1 : FetchSt := { st with destExists := false }
    if o.renameOk then (.ok (), { st1 with tempExists := false, destExists := true })
    else (.error .renameFailed, st1)

/-- The candidate loop of `fetch_ubuntu_image` (image.rs lines 113-160).
A transport failure records the error and moves to the next source; a
successful download with a mismatching checksum is propagated by `?`
(image.rs line 124) — it neither falls over nor cleans the temp file.
Exhaustion removes the temp file and aggregates the failure. -/
def fetchGo (o : FetchOracle) :
    List ImageSource → Option String → FetchSt → Except FetchErr Unit × FetchSt
  | [], lastErr, st =>
    (.error (.allSourcesFailed lastErr), { st with tempExists := false })
  | src :: rest, _last, st =>
    match o.dl st.downloads with
    | .fail msg =>
      fetchGo o rest (some (src.url ++ ": " ++ msg))
        { st with downloads := st.downloads + 1, tempExists := true }
    | .ok digest =>
      let st1 : FetchSt := { st with downloads := st.downloads + 1, tempExists := true }
      match src.sha256 with
      | some expected =>
        if eqIgnoreAsciiCase digest expected then installArtifact o st1
        else (.error (.checksumMismatch src.url expected digest), st1)
      | none => installArtifact o st1

/-- Model of `fetch_ubuntu_image` (image.rs lines 88-161).  `destExists` and
`tempExists0` describe the filesystem on entry; steps occur in source order:
empty-name check, already-exists check, destination-directory creation,
source resolution, stale-temp removal, then the candidate loop. -/
def fetch_ubuntu_image (hostArch : String) (cfg : FetchConfig)
    (destExists tempExists0 : Bool) (o : FetchOracle) :
    Except FetchErr Unit × FetchSt :=
  let st0 : FetchSt := ⟨tempExists0, destExists, 0⟩
  if trimEmpty cfg.image then (.error .emptyImage, st0)
  else if destExists && !cfg.force then (.error .alreadyExists, st0)
  else if !o.mkdirOk then (.error .mkdirFailed, st0)
  else
    match resolve_sources hostArch cfg with
    | .error e => (.error e, st0)
    | .ok sources =>
      if tempExists0 && !o.staleRemoveOk then (.error .staleTempRemoveFailed, st0)
      else fetchGo o sources none { st0 with tempExists := false }

/-! ### run.rs : spec building helpers -/

/-- Model of the `DiskImageFormat` enum (lib.rs lines 48-53). -/
inductive DiskImageFormat
  | raw
  | qcow2
  | vmdk
deriving DecidableEq, Repr

/-- Model of the `DiskFormatArg` enum (run.rs lines 12-18). -/
inductive DiskFormatArg
  | auto
  | raw
  | qcow2
  | vmdk
deriving DecidableEq, Repr

/-- Model of `guess_disk_format` (run.rs lines 181-202).  The input is the
path's final component (`disk_path.file_name()`); the code lowercases it and
matches on suffixes. -/
def guess_disk_format (fileName : String) : Except String DiskImageFormat :=
  let name := toAsciiLower fileName
  if strEndsWith name ".qcow2" || strEndsWith name ".img" then .ok .qcow2
  else if strEndsWith name ".vmdk" then .ok .vmdk
  else if strEndsWith name ".raw" then .ok .raw
  else
    .error ("cannot auto-detect disk format from '" ++ fileName
      ++ "'; pass --disk-format explicitly")

/-- Model of `resolve_disk_format` (run.rs lines 172-179). -/
def resolve_disk_format (format : DiskFormatArg) (fileName : String) :
    Except String DiskImageFormat :=
  match format with
  | .raw => .ok .raw
  | .qcow2 => .ok .qcow2
  | .vmdk => .ok .vmdk
  | .auto => guess_disk_format fileName

/-- The port-map assembly loop of `build_run_spec` (run.rs lines 80-85): the
gateway pair is registered first, then each additional publish pair is pushed
unless byte-identical to the gateway pair. -/
def build_port_map (gatewayPort : Nat) (additional : List (Nat × Nat)) :
    List (Nat × Nat) :=
  additional.foldl
    (fun acc publish =>
      if publish ≠ (gatewayPort, gatewayPort) then acc ++ [publish] else acc)
    [(gatewayPort, gatewayPort)]

/-! ### libkrun-sys : loading the native library -/

/-- The nine required entry points resolved by `load_symbols` (lib.rs lines
273-281), in resolution order. -/
def requiredSymbols : List String :=
  ["krun_create_ctx", "krun_free_ctx", "krun_set_vm_config", "krun_set_root",
   "krun_add_virtiofs", "krun_set_port_map", "krun_set_workdir",
   "krun_set_exec", "krun_start_enter"]

/-- Oracle for one candidate shared library: whether `dlopen` succeeds (and
with which message it fails), and which symbols the library exports. -/
structure CandidateLib where
  openErr : Option String
  symbols : String → Bool

/-- The resolved capability table: the required function pointers (implicit —
resolution succeeded) plus availability of the two optional entry points. -/
structure LoadedFns where
  hasAddDisk2 : Bool
  hasSetRootDiskRemount : Bool
deriving DecidableEq, Repr

/-- First required symbol the library fails to export, in resolution order:
the symbol whose `lib.get(...)?` fails inside `load_symbols`. -/
def firstMissing (has : String → Bool) : List String → Option String
  | [] => none
  | s :: rest => if has s then firstMissing has rest else some s

/-- Model of `load_symbols` (lib.rs lines 272-304): every required symbol is
resolved with `?`; the two optional symbols are resolved with `.ok()`. -/
def load_symbols (c : CandidateLib) : Except String LoadedFns :=
  match firstMissing c.symbols requiredSymbols with
  | some sym => .error sym
  | none => .ok ⟨c.symbols "krun_add_disk2", c.symbols "krun_set_root_disk_remount"⟩

/-- Errors of `LibKrun::load`. -/
inductive LoadErr
  | allFailed (last : Option String)
  | symbolFailed (candidate symbol : String)
deriving DecidableEq, Repr

/-- The candidate loop of `LibKrun::load` (lib.rs lines 100-118): a `dlopen`
failure records the error and continues; when a library opens, `load_symbols`
is invoked and its failure is propagated by `?` (lib.rs line 106) — the loop
does not continue past it. -/
def loadGo : List (String × CandidateLib) → Option String →
    Except LoadErr (String × LoadedFns)
  | [], lastErr => .error (.allFailed lastErr)
  | (name, c) :: rest, _lastErr =>
    match c.openErr with
    | some err => loadGo rest (some (name ++ ": " ++ err))
    | none =>
      match load_symbols c with
      | .error sym => .error (.symbolFailed name sym)
      | .ok fns => .ok (name, fns)

/-- Model of `LibKrun::load` (lib.rs lines 91-119) over an explicit candidate
list (`LIBKRUN_PATH` override followed by the platform-conventional names). -/
def LibKrun.load (candidates : List (String × CandidateLib)) :
    Except LoadErr (String × LoadedFns) :=
  loadGo candidates none

/-! ### libkrun-sys : the run state machine -/

/-- Model of the `ExecSpec` struct (lib.rs lines 40-46). -/
structure ExecSpec where
  exec_path : String
  argv : List String
  env : List String
  workdir : String
deriving Repr

/-- Model of the `RootSpec` enum (lib.rs lines 65-78). -/
inductive RootSpec
  | virtioFs (rootfs : String)
  | diskImage (disk_path : String) (disk_format : DiskImageFormat)
      (read_only : Bool) (root_device : String)
      (root_fstype : Option String) (root_options : Option String)
deriving Repr

/-- Model of the `RunSpec` struct (lib.rs lines 80-88). -/
structure RunSpec where
  cpus : Nat
  memory_mib : Nat
  root : RootSpec
  virtiofs_mounts : List (String × String)
  port_map : List (Nat × Nat)
  exec : ExecSpec
deriving Repr

/-- Names of the native entry points invoked by `LibKrun::run`, recorded in
the call trace. -/
inductive KName
  | create
  | free
  | set_vm_config
  | set_root
  | add_disk2
  | set_root_disk_remount
  | add_virtiofs
  | set_port_map
  | set_workdir
  | set_exec
  | start_enter
deriving DecidableEq, Repr

/-- Errors of `LibKrun::run`, mirroring its `bail!`/`anyhow!`/context sites. -/
inductive RunErr
  | rootMissing (path : String)
  | createCtxFailed (code : Int)
  | capabilityMissing (name : String)
  | nulByte (field : String)
  | callFailed (name : KName) (code : Int)
deriving DecidableEq, Repr

/-- Oracle for one `LibKrun::run` invocation: host-path existence, the return
code of `krun_create_ctx`, the return code of the `n`-th subsequent native
configuration call, and availability of the two optional entry points. -/
structure RunOracle where
  pathExists : String → Bool
  createCtxRet : Int
  results : Nat → Int
  hasAddDisk2 : Bool
  hasSetRootDiskRemount : Bool

/-- State threaded through one configuration attempt: how many native
configuration calls were made, and the trace of native calls so far. -/
structure RunSt where
  idx : Nat
  trace : List KName

/-- The configuration computation: state in, state plus outcome out.  Errors
keep the state (the calls made before the failure stay in the trace). -/
def KM (α : Type) : Type := RunSt → RunSt × Except RunErr α

instance : Monad KM where
  pure a := fun s => (s, .ok a)
  bind x f := fun s =>
    match x s with
    | (s1, .ok a) => f a s1
    | (s1, .error e) => (s1, .error e)

/-- Abort the configuration sequence with an error (`?` on a failing step). -/
def kmThrow {α : Type} (e : RunErr) : KM α :=
  fun s => (s, .error e)

/-- One native configuration call (`call_krun` around a function-pointer
invocation, lib.rs lines 342-348): the call is recorded in the trace and its
return code comes from the oracle; a non-zero code aborts the sequence. -/
def nativeCall (o : RunOracle) (n : KName) : KM Unit :=
  fun s =>
    let code := o.results s.idx
    (⟨s.idx + 1, s.trace ++ [n]⟩,
      if code = 0 then .ok () else .error (.callFailed n code))

/-- Whether a string contains an interior NUL byte (`CString::new` fails). -/
def hasNul (s : String) : Bool :=
  s.data.any (fun c => c == Char.ofNat 0)

/-- Model of a `CString::new(..)` marshaling step: an embedded NUL is a named
error identifying the offending field, raised before any native call. -/
def checkNul (field value : String) : KM Unit :=
  if hasNul value then kmThrow (.nulByte field) else pure ()

/-- Marshal a list of strings (`make_c_array`, lib.rs lines 306-321). -/
def checkNulAll (field : String) : List String → KM Unit
  | [] => pure ()
  | v :: rest => do
    checkNul field v
    checkNulAll field rest

/-- The port-map marshaling of `make_port_map` (lib.rs lines 323-329):
each pair is rendered as `"host:guest"`. -/
def portMapStrings (pairs : List (Nat × Nat)) : List String :=
  pairs.map (fun p => toString p.1 ++ ":" ++ toString p.2)

/-- Model of `self.fns.xxx.ok_or_else(..)?` (lib.rs lines 164-169): using an
optional capability requires its function pointer to have been resolved. -/
def requireCap (present : Bool) (name : String) : KM Unit :=
  if present then pure () else kmThrow (.capabilityMissing name)

/-- Marshal an optional string (`Option<&str> → Option<CString>` via
`transpose`, lib.rs lines 191-200); `none` becomes a null pointer. -/
def checkNulOpt (field : String) : Option String → KM Unit
  | some v => checkNul field v
  | none => pure ()

/-- The root-assignment step of the configuration closure (lib.rs lines
147-221), dispatched on `RootSpec`. -/
def rootStep (o : RunOracle) : RootSpec → KM Unit
  | .virtioFs rootfs => do
    checkNul "rootfs" rootfs
    nativeCall o .set_root
  | .diskImage disk_path _ _ root_device root_fstype root_options => do
    requireCap o.hasAddDisk2 "krun_add_disk2"
    requireCap o.hasSetRootDiskRemount "krun_set_root_disk_remount"
    checkNul "block id" "rootdisk"
    checkNul "disk path" disk_path
    nativeCall o .add_disk2
    checkNul "root device" root_device
    checkNulOpt "root fstype" root_fstype
    checkNulOpt "root options" root_options
    nativeCall o .set_root_disk_remount

/-- The virtiofs-mount loop (lib.rs lines 223-232). -/
def mountStep (o : RunOracle) : List (String × String) → KM Unit
  | [] => pure ()
  | (tag, host_path) :: rest => do
    checkNul "virtiofs tag" tag
    checkNul "virtiofs path" host_path
    nativeCall o .add_virtiofs
    mountStep o rest

/-- The configuration closure of `LibKrun::run` (lib.rs lines 141-265), in
strict source order. -/
def runBody (o : RunOracle) (spec : RunSpec) : KM Unit := do
  nativeCall o .set_vm_config
  rootStep o spec.root
  mountStep o spec.virtiofs_mounts
  checkNulAll "port map entry" (portMapStrings spec.port_map)
  nativeCall o .set_port_map
  checkNul "workdir" spec.exec.workdir
  nativeCall o .set_workdir
  checkNul "exec path" spec.exec.exec_path
  checkNulAll "argv" spec.exec.argv
  checkNulAll "env" spec.exec.env
  nativeCall o .set_exec
  nativeCall o .start_enter

/-- The host path whose existence `LibKrun::run` checks up front (lib.rs
lines 122-133). -/
def rootPathOf : RootSpec → String
  | .virtioFs rootfs => rootfs
  | .diskImage disk_path _ _ _ _ _ => disk_path

/-- Model of `LibKrun::run` (lib.rs lines 121-269): the path check and the
context-creation call precede the closure; after the closure finishes — by
success or by any error — `krun_free_ctx` is invoked once (lib.rs line 267)
and the closure's result is returned.  The first component is the full trace
of native calls. -/
def LibKrun.run (o : RunOracle) (spec : RunSpec) :
    List KName × Except RunErr Unit :=
  if !o.pathExists (rootPathOf spec.root) then
    ([], .error (.rootMissing (rootPathOf spec.root)))
  else if o.createCtxRet < 0 then
    ([.create], .error (.createCtxFailed o.createCtxRet))
  else
    let (s, r) := runBody o spec ⟨0, [.create]⟩
    (s.trace ++ [.free], r)

/-- The identifiers matched by `ubuntu_suffix_for_arch`. -/
def documentedArchs : List String :=
  ["x86_64", "amd64", "aarch64", "arm64", "riscv64", "arm", "armv7l",
   "s390x", "powerpc64le", "ppc64le"]

/-- A configuration computation preserves the number of `krun_free_ctx`
entries in the trace: the closure body never frees the context itself. -/
def PreservesFreeCount {α : Type} (m : KM α) : Prop :=
  ∀ s : RunSt, ((m s).1.trace.count KName.free) = s.trace.count KName.free

/-! ## Theorems -/

/-- Unrolling the port-map loop: folding pushes onto the accumulator exactly
the pairs the filter keeps, in order. -/
theorem port_map_foldl_eq_filter (gw : Nat) :
    ∀ (l acc : List (Nat × Nat)),
      l.foldl (fun acc publish =>
          if publish ≠ (gw, gw) then acc ++ [publish] else acc) acc
        = acc ++ l.filter (fun publish => publish ≠ (gw, gw)) := by
  intro l
  induction l with
  | nil => intro acc; simp
  | cons x xs ih =>
    intro acc
    simp only [List.foldl_cons, List.filter_cons]
    by_cases h : x ≠ (gw, gw)
    · rw [if_pos h, ih]
      simp [h]
    · rw [if_neg h, ih]
      simp [h]

/-- C6: the resolved port map starts with the gateway pair `(g, g)` and is
followed by exactly the additional publish pairs that differ from `(g, g)`,
in caller order; in particular gateway `18789` with additional pairs
`[(18789,18789),(8080,80)]` yields `[(18789,18789),(8080,80)]`. -/
theorem C6_port_map_assembly :
    (∀ (gatewayPort : Nat) (additional : List (Nat × Nat)),
        build_port_map gatewayPort additional
          = (gatewayPort, gatewayPort)
              :: additional.filter
                  (fun publish => publish ≠ (gatewayPort, gatewayPort)))
    ∧ build_port_map 18789 [(18789, 18789), (8080, 80)]
        = [(18789, 18789), (8080, 80)] := by
  constructor
  · intro gw additional
    unfold build_port_map
    rw [port_map_foldl_eq_filter]
    simp
  · decide

/-- C8: architecture resolution maps every documented platform identifier to
the Ubuntu naming convention — in particular `x86_64 → amd64`,
`aarch64 → arm64`, `ppc64le → ppc64el` — and yields `none` for every
identifier outside the documented set; `resolve_sources` turns that `none`
into a hard error (e.g. for `unknown-arch`). -/
theorem C8_arch_mapping :
    ubuntu_suffix_for_arch "x86_64" = some "amd64"
    ∧ ubuntu_suffix_for_arch "amd64" = some "amd64"
    ∧ ubuntu_suffix_for_arch "aarch64" = some "arm64"
    ∧ ubuntu_suffix_for_arch "arm64" = some "arm64"
    ∧ ubuntu_suffix_for_arch "riscv64" = some "riscv64"
    ∧ ubuntu_suffix_for_arch "arm" = some "armhf"
    ∧ ubuntu_suffix_for_arch "armv7l" = some "armhf"
    ∧ ubuntu_suffix_for_arch "s390x" = some "s390x"
    ∧ ubuntu_suffix_for_arch "powerpc64le" = some "ppc64el"
    ∧ ubuntu_suffix_for_arch "ppc64le" = some "ppc64el"
    ∧ (∀ arch : String, arch ∉ documentedArchs →
        ubuntu_suffix_for_arch arch = none)
    ∧ resolve_sources "x86_64"
        ⟨"ubuntu", none, none, some "unknown-arch", false⟩
      = .error (.unsupportedArch "unknown-arch") := by
  refine ⟨rfl, rfl, rfl, rfl, rfl, rfl, rfl, rfl, rfl, rfl, ?_, rfl⟩
  intro arch h
  simp only [documentedArchs, List.mem_cons, List.not_mem_nil, or_false] at h
  push_neg at h
  obtain ⟨h1, h2, h3, h4, h5, h6, h7, h8, h9, h10⟩ := h
  unfold ubuntu_suffix_for_arch
  simp [h1, h2, h3, h4, h5, h6, h7, h8, h9, h10]

/-- C2: the sanitizer does confine the alphabet — every character of
`sanitize image` lies in `[A-Za-z0-9_.-]` — but the identity `".."` consists
only of allowed characters and survives sanitization unchanged, so the
resolved disk path gains a literal `..` segment and resolves outside the
cache root: the stated invariant fails on the input `".."`. -/
theorem C2_sanitize_dotdot_escapes_cache_root :
    (∀ image : String, (sanitize image).data.all keepChar = true)
    ∧ sanitize ".." = ".."
    ∧ image_disk_path ["home", "user", ".cache", "krunclaw", "images"] ".."
        = .ok ["home", "user", ".cache", "krunclaw", "images", "..", "disk.img"]
    ∧ normalizePath ["home", "user", ".cache", "krunclaw", "images", "..", "disk.img"]
        = ["home", "user", ".cache", "krunclaw", "disk.img"]
    ∧ underRoot ["home", "user", ".cache", "krunclaw", "images"]
        ["home", "user", ".cache", "krunclaw", "images", "..", "disk.img"] = false := by
  refine ⟨?_, by decide, by rfl, by decide, by decide⟩
  intro image
  show (image.data.map fun c => if keepChar c then c else '_').all keepChar = true
  rw [List.all_map]
  apply List.all_eq_true.mpr
  intro c _
  by_cases h : keepChar c
  · simp [h]
  · simp only [Function.comp_apply, if_neg h]
    decide

/-- C9 counterexample: for the supported architecture `riscv64` (and likewise
for `armhf`, `s390x`, `ppc64el`) the default source list has no checksummed
primary mirror at all — its sole candidate is the checksum-less
latest-release fallback, contradicting the claim that every supported
architecture gets a primary mirror carrying a known checksum first. -/
theorem C9_riscv64_has_no_primary :
    resolve_sources "x86_64" ⟨"ubuntu", none, none, some "riscv64", false⟩
      = .ok [⟨fallbackUrl "riscv64", none⟩]
    ∧ (default_lima_ubuntu_sources_for_suffix "riscv64").length = 1
    ∧ (default_lima_ubuntu_sources_for_suffix "riscv64").all
        (fun s => s.sha256.isNone) = true := by
  refine ⟨by rfl, by rfl, by rfl⟩

/-- C9 (amended): an explicit URL is the sole candidate with no checksum;
otherwise a dated release gives the dated URL for the resolved architecture
as the sole candidate; otherwise the checksummed hard-coded primary mirror
exists only for the `amd64` and `arm64` suffixes and is followed by the
checksum-less latest-release fallback, while every other supported suffix
gets the fallback as its only candidate; an unmapped architecture is a hard
error. -/
theorem C9_source_resolution :
    (∀ (hostArch : String) (cfg : FetchConfig) (u : String),
        cfg.url = some u →
        resolve_sources hostArch cfg = .ok [⟨u, none⟩])
    ∧ (∀ (hostArch : String) (cfg : FetchConfig) (d suffix : String),
        cfg.url = none →
        ubuntu_suffix_for_arch (cfg.arch.getD hostArch) = some suffix →
        cfg.ubuntu_date = some d →
        resolve_sources hostArch cfg = .ok [⟨datedUrl d suffix, none⟩])
    ∧ (∀ (hostArch : String) (cfg : FetchConfig),
        cfg.url = none →
        ubuntu_suffix_for_arch (cfg.arch.getD hostArch) = none →
        resolve_sources hostArch cfg
          = .error (.unsupportedArch (cfg.arch.getD hostArch)))
    ∧ (∀ (hostArch : String) (cfg : FetchConfig),
        cfg.url = none → cfg.ubuntu_date = none →
        ubuntu_suffix_for_arch (cfg.arch.getD hostArch) = some "amd64" →
        resolve_sources hostArch cfg
          = .ok [⟨primaryUrl "amd64", some amd64Sha⟩,
                 ⟨fallbackUrl "amd64", none⟩])
    ∧ (∀ (hostArch : String) (cfg : FetchConfig),
        cfg.url = none → cfg.ubuntu_date = none →
        ubuntu_suffix_for_arch (cfg.arch.getD hostArch) = some "arm64" →
        resolve_sources hostArch cfg
          = .ok [⟨primaryUrl "arm64", some arm64Sha⟩,
                 ⟨fallbackUrl "arm64", none⟩])
    ∧ (∀ (hostArch : String) (cfg : FetchConfig) (suffix : String),
        cfg.url = none → cfg.ubuntu_date = none →
        ubuntu_suffix_for_arch (cfg.arch.getD hostArch) = some suffix →
        suffix ≠ "amd64" → suffix ≠ "arm64" →
        resolve_sources hostArch cfg = .ok [⟨fallbackUrl suffix, none⟩]) := by
  refine ⟨?_, ?_, ?_, ?_, ?_, ?_⟩
  · intro hostArch cfg u hu
    simp [resolve_sources, hu]
  · intro hostArch cfg d suffix hu hsfx hd
    simp [resolve_sources, hu, hsfx, hd]
  · intro hostArch cfg hu hsfx
    simp [resolve_sources, hu, hsfx]
  · intro hostArch cfg hu hd hsfx
    simp [resolve_sources, hu, hsfx, hd, default_lima_ubuntu_sources_for_suffix]
  · intro hostArch cfg hu hd hsfx
    simp [resolve_sources, hu, hsfx, hd, default_lima_ubuntu_sources_for_suffix]
  · intro hostArch cfg suffix hu hd hsfx h1 h2
    simp [resolve_sources, hu, hsfx, hd, default_lima_ubuntu_sources_for_suffix,
      h1, h2]

/-- C5: when the canonical artifact already exists and `force` is false,
`fetch_ubuntu_image` fails with the already-exists error while the state is
untouched and zero downloads were performed — for every configuration (any
explicit URL, date or architecture) and every oracle, so no candidate
resolution and no network activity occurs on the second call. -/
theorem C5_fetch_refuses_existing :
    ∀ (hostArch : String) (cfg : FetchConfig) (tempExists0 : Bool)
      (o : FetchOracle),
      trimEmpty cfg.image = false →
      cfg.force = false →
      fetch_ubuntu_image hostArch cfg true tempExists0 o
        = (.error .alreadyExists, ⟨tempExists0, true, 0⟩) := by
  intro hostArch cfg t o himg hforce
  unfold fetch_ubuntu_image
  rw [himg, hforce]
  simp

/-- Witness for C5 at a concrete configuration and oracle. -/
theorem C5_fetch_refuses_existing_witness :
    fetch_ubuntu_image "x86_64" ⟨"ubuntu", none, none, none, false⟩ true false
      ⟨fun _ => .fail "transport", true, true, true, true⟩
      = (.error .alreadyExists, ⟨false, true, 0⟩) :=
  C5_fetch_refuses_existing "x86_64" ⟨"ubuntu", none, none, none, false⟩ false
    ⟨fun _ => .fail "transport", true, true, true, true⟩ (by decide) rfl

/-- Two ends-with patterns that are not suffixes of one another cannot both
match the same string. -/
theorem strEndsWith_excludes {s a b : String}
    (hab : a.data.isSuffixOf b.data = false)
    (hba : b.data.isSuffixOf a.data = false)
    (ha : strEndsWith s a = true) : strEndsWith s b = false := by
  by_contra hb
  rw [Bool.not_eq_false] at hb
  unfold strEndsWith at ha hb
  rw [List.isSuffixOf_iff_suffix] at ha hb
  rcases List.suffix_or_suffix_of_suffix ha hb with h | h
  · simp [List.isSuffixOf_iff_suffix.mpr h] at hab
  · simp [List.isSuffixOf_iff_suffix.mpr h] at hba

/-- C7: with auto-detection requested, the effective disk format is decided
solely by the (ASCII-lowercased) file name's ending — `.qcow2`/`.img` give
qcow2, `.vmdk` gives vmdk, `.raw` gives raw, and any other name is a hard
error telling the caller to pass the format explicitly; in particular
`disk.qcow2`, `disk.img`, `disk.vmdk`, `disk.raw` and `disk.bin` behave as
the spec's table states. -/
theorem C7_disk_format_auto_detection :
    (∀ fileName : String,
        strEndsWith (toAsciiLower fileName) ".qcow2" = true
          ∨ strEndsWith (toAsciiLower fileName) ".img" = true →
        resolve_disk_format .auto fileName = .ok .qcow2)
    ∧ (∀ fileName : String,
        strEndsWith (toAsciiLower fileName) ".vmdk" = true →
        resolve_disk_format .auto fileName = .ok .vmdk)
    ∧ (∀ fileName : String,
        strEndsWith (toAsciiLower fileName) ".raw" = true →
        resolve_disk_format .auto fileName = .ok .raw)
    ∧ (∀ fileName : String,
        strEndsWith (toAsciiLower fileName) ".qcow2" = false →
        strEndsWith (toAsciiLower fileName) ".img" = false →
        strEndsWith (toAsciiLower fileName) ".vmdk" = false →
        strEndsWith (toAsciiLower fileName) ".raw" = false →
        resolve_disk_format .auto fileName
          = .error ("cannot auto-detect disk format from '" ++ fileName
              ++ "'; pass --disk-format explicitly"))
    ∧ resolve_disk_format .auto "disk.qcow2" = .ok .qcow2
    ∧ resolve_disk_format .auto "disk.img" = .ok .qcow2
    ∧ resolve_disk_format .auto "disk.vmdk" = .ok .vmdk
    ∧ resolve_disk_format .auto "disk.raw" = .ok .raw
    ∧ resolve_disk_format .auto "disk.bin"
        = .error "cannot auto-detect disk format from 'disk.bin'; pass --disk-format explicitly" := by
  refine ⟨?_, ?_, ?_, ?_, by rfl, by rfl, by rfl, by rfl, by rfl⟩
  · intro n h
    rcases h with h | h <;>
      simp [resolve_disk_format, guess_disk_format, h]
  · intro n h
    have h1 := strEndsWith_excludes (by decide) (by decide) h
      (b := ".qcow2")
    have h2 := strEndsWith_excludes (by decide) (by decide) h
      (b := ".img")
    simp [resolve_disk_format, guess_disk_format, h, h1, h2]
  · intro n h
    have h1 := strEndsWith_excludes (by decide) (by decide) h
      (b := ".qcow2")
    have h2 := strEndsWith_excludes (by decide) (by decide) h
      (b := ".img")
    have h3 := strEndsWith_excludes (by decide) (by decide) h
      (b := ".vmdk")
    simp [resolve_disk_format, guess_disk_format, h, h1, h2, h3]
  · intro n h1 h2 h3 h4
    simp [resolve_disk_format, guess_disk_format, h1, h2, h3, h4]

/-- C1 counterexample: with the default amd64 sources (checksummed primary,
checksum-less fallback), a corrupted primary download makes the fetch stop
at the sha256-verification error after a single download attempt — the
fallback source is never tried — and the temporary file is still present
when the call returns. -/
theorem C1_checksum_mismatch_aborts :
    fetch_ubuntu_image "x86_64" ⟨"ubuntu", none, none, none, false⟩ false false
      ⟨fun _ => .ok "0000", true, true, true, true⟩
      = (.error (.checksumMismatch (primaryUrl "amd64") amd64Sha "0000"),
         ⟨true, false, 1⟩) := by
  rfl

/-- C1 (amended): after any run of transport-failing sources, the first
source whose download succeeds but whose attached checksum does not match
makes the whole fetch return the checksum-mismatch error immediately — no
further source is attempted and the temporary file is left behind; the
temporary file is removed (together with the aggregate error) only when
every candidate source fails at the transport level. -/
theorem C1_mismatch_no_failover :
    (∀ (o : FetchOracle) (pre : List ImageSource) (src : ImageSource)
        (rest : List ImageSource) (lastErr : Option String) (st : FetchSt)
        (digest expected : String),
        (∀ j, j < pre.length → ∃ m, o.dl (st.downloads + j) = .fail m) →
        o.dl (st.downloads + pre.length) = .ok digest →
        src.sha256 = some expected →
        eqIgnoreAsciiCase digest expected = false →
        fetchGo o (pre ++ src :: rest) lastErr st
          = (.error (.checksumMismatch src.url expected digest),
             ⟨true, st.destExists, st.downloads + pre.length + 1⟩))
    ∧ (∀ (o : FetchOracle) (sources : List ImageSource)
        (lastErr : Option String) (st : FetchSt),
        (∀ j, j < sources.length → ∃ m, o.dl (st.downloads + j) = .fail m) →
        ∃ lastMsg,
          fetchGo o sources lastErr st
            = (.error (.allSourcesFailed lastMsg),
               ⟨false, st.destExists, st.downloads + sources.length⟩)) := by
  constructor
  · intro o pre
    induction pre with
    | nil =>
      intro src rest lastErr st digest expected _ hdl hsha hmm
      simp only [List.length_nil, Nat.add_zero] at hdl
      simp only [List.nil_append]
      simp only [fetchGo, hdl, hsha, hmm]
      simp
    | cons p pre ih =>
      intro src rest lastErr st digest expected hfail hdl hsha hmm
      obtain ⟨m, hm⟩ := hfail 0 (by simp)
      rw [Nat.add_zero] at hm
      have step :
          fetchGo o ((p :: pre) ++ src :: rest) lastErr st
            = fetchGo o (pre ++ src :: rest)
                (some (p.url ++ ": " ++ m))
                ⟨true, st.destExists, st.downloads + 1⟩ := by
        simp only [List.cons_append]
        simp only [fetchGo, hm]
      rw [step]
      have ih' := ih src rest (some (p.url ++ ": " ++ m))
        ⟨true, st.destExists, st.downloads + 1⟩ digest expected
        (by
          intro j hj
          obtain ⟨m', hm'⟩ := hfail (j + 1) (by simpa using Nat.succ_lt_succ hj)
          refine ⟨m', ?_⟩
          rw [show st.downloads + 1 + j = st.downloads + (j + 1) from by omega]
          exact hm')
        (by
          rw [show st.downloads + 1 + pre.length
                = st.downloads + (p :: pre).length from by
            simp only [List.length_cons]; omega]
          exact hdl)
        hsha hmm
      rw [ih']
      rw [show st.downloads + 1 + pre.length
            = st.downloads + (p :: pre).length from by
        simp only [List.length_cons]; omega]
  · intro o sources
    induction sources with
    | nil =>
      intro lastErr st _
      refine ⟨lastErr, ?_⟩
      simp only [fetchGo, List.length_nil, Nat.add_zero]
    | cons src rest ih =>
      intro lastErr st hfail
      obtain ⟨m, hm⟩ := hfail 0 (by simp)
      rw [Nat.add_zero] at hm
      have step :
          fetchGo o (src :: rest) lastErr st
            = fetchGo o rest (some (src.url ++ ": " ++ m))
                ⟨true, st.destExists, st.downloads + 1⟩ := by
        simp only [fetchGo, hm]
      obtain ⟨lastMsg, hrest⟩ := ih (some (src.url ++ ": " ++ m))
        ⟨true, st.destExists, st.downloads + 1⟩
        (by
          intro j hj
          obtain ⟨m', hm'⟩ := hfail (j + 1) (by simpa using Nat.succ_lt_succ hj)
          refine ⟨m', ?_⟩
          rw [show st.downloads + 1 + j = st.downloads + (j + 1) from by omega]
          exact hm')
      refine ⟨lastMsg, ?_⟩
      rw [step, hrest]
      rw [show st.downloads + 1 + rest.length
            = st.downloads + (src :: rest).length from by
        simp only [List.length_cons]; omega]

/-- Witness for C1's amended statement: the concrete amd64 scenario with a
transport-failing primary run of length zero and a mismatching digest. -/
theorem C1_mismatch_no_failover_witness :
    fetchGo ⟨fun _ => .ok "0000", true, true, true, true⟩
      ([] ++ ⟨primaryUrl "amd64", some amd64Sha⟩
          :: [⟨fallbackUrl "amd64", none⟩]) none ⟨false, false, 0⟩
      = (.error (.checksumMismatch (primaryUrl "amd64") amd64Sha "0000"),
         ⟨true, false, 1⟩) :=
  C1_mismatch_no_failover.1 ⟨fun _ => .ok "0000", true, true, true, true⟩
    [] ⟨primaryUrl "amd64", some amd64Sha⟩ [⟨fallbackUrl "amd64", none⟩]
    none ⟨false, false, 0⟩ "0000" amd64Sha
    (by intro j hj; simp at hj) rfl rfl (by rfl)

/-- The install step touches the pre-existing artifact only on the rename
path: any of its error exits other than a rename failure leaves
`destExists` as it was. -/
theorem installArtifact_preserves_dest (o : FetchOracle) (st : FetchSt)
    {e : FetchErr} {st' : FetchSt}
    (h : installArtifact o st = (.error e, st')) (hne : e ≠ .renameFailed) :
    st'.destExists = st.destExists := by
  unfold installArtifact at h
  by_cases h1 : st.destExists && !o.removeDestOk
  · rw [if_pos h1] at h
    simp only [Prod.mk.injEq, Except.error.injEq] at h
    rw [← h.2]
  · rw [if_neg h1] at h
    by_cases h2 : o.renameOk
    · rw [if_pos h2] at h
      simp at h
    · rw [if_neg h2] at h
      simp only [Prod.mk.injEq, Except.error.injEq] at h
      exact absurd h.1.symm hne

/-- The candidate loop never touches the pre-existing artifact on any error
exit other than a rename failure. -/
theorem fetchGo_preserves_dest (o : FetchOracle) :
    ∀ (sources : List ImageSource) (lastErr : Option String) (st : FetchSt)
      (e : FetchErr) (st' : FetchSt),
      fetchGo o sources lastErr st = (.error e, st') →
      e ≠ .renameFailed →
      st'.destExists = st.destExists := by
  intro sources
  induction sources with
  | nil =>
    intro lastErr st e st' h hne
    simp only [fetchGo, Prod.mk.injEq, Except.error.injEq] at h
    rw [← h.2]
  | cons src rest ih =>
    intro lastErr st e st' h hne
    simp only [fetchGo] at h
    split at h
    · have := ih _ ⟨true, st.destExists, st.downloads + 1⟩ e st' h hne
      simpa using this
    · split at h
      · split at h
        · have := installArtifact_preserves_dest o
            ⟨true, st.destExists, st.downloads + 1⟩ h hne
          simpa using this
        · simp only [Prod.mk.injEq, Except.error.injEq] at h
          rw [← h.2]
      · have := installArtifact_preserves_dest o
          ⟨true, st.destExists, st.downloads + 1⟩ h hne
        simpa using this

/-- C10: whenever `fetch_ubuntu_image` ends in any error other than a rename
failure — every source failing, a checksum-verification error, or any
filesystem error before the rename — the pre-existing artifact at the
canonical disk path is exactly as it was on entry; it is removed only
immediately before the rename of a downloaded-and-verified temporary. -/
theorem C10_existing_artifact_preserved :
    ∀ (hostArch : String) (cfg : FetchConfig) (destExists tempExists0 : Bool)
      (o : FetchOracle) (e : FetchErr) (st' : FetchSt),
      fetch_ubuntu_image hostArch cfg destExists tempExists0 o
        = (.error e, st') →
      e ≠ .renameFailed →
      st'.destExists = destExists := by
  intro hostArch cfg d t o e st' h hne
  unfold fetch_ubuntu_image at h
  split at h
  · simp only [Prod.mk.injEq, Except.error.injEq] at h
    rw [← h.2]
  · split at h
    · simp only [Prod.mk.injEq, Except.error.injEq] at h
      rw [← h.2]
    · split at h
      · simp only [Prod.mk.injEq, Except.error.injEq] at h
        rw [← h.2]
      · split at h
        · simp only [Prod.mk.injEq, Except.error.injEq] at h
          rw [← h.2]
        · split at h
          · simp only [Prod.mk.injEq, Except.error.injEq] at h
            rw [← h.2]
          · exact fetchGo_preserves_dest o _ _ _ _ _ h hne

/-- Witness for C10: a checksum-mismatch abort with a pre-existing artifact
(forced re-fetch) leaves the artifact in place. -/
theorem C10_existing_artifact_preserved_witness :
    (⟨true, true, 1⟩ : FetchSt).destExists = true :=
  C10_existing_artifact_preserved "x86_64" ⟨"ubuntu", none, none, none, true⟩
    true false ⟨fun _ => .ok "0000", true, true, true, true⟩
    (.checksumMismatch (primaryUrl "amd64") amd64Sha "0000") ⟨true, true, 1⟩
    (by rfl) (by decide)

/-- C4 counterexample: the first candidate opens but lacks the required
symbol `krun_set_root`; the second candidate is complete.  The load returns
the symbol-resolution error instead of moving on to the second candidate —
which, tried alone, would have loaded successfully. -/
theorem C4_symbol_failure_aborts_load :
    LibKrun.load
      [("libkrun.so", ⟨none, fun s => !(s == "krun_set_root")⟩),
       ("libkrun.dylib", ⟨none, fun _ => true⟩)]
      = .error (.symbolFailed "libkrun.so" "krun_set_root")
    ∧ LibKrun.load [("libkrun.dylib", ⟨none, fun _ => true⟩)]
        = .ok ("libkrun.dylib", ⟨true, true⟩) :=
  ⟨rfl, rfl⟩

/-- Candidates that fail to open are skipped, only updating the recorded
last error. -/
theorem loadGo_skips_open_failures :
    ∀ (pre : List (String × CandidateLib)) (lastErr : Option String)
      (tail : List (String × CandidateLib)),
      (∀ entry ∈ pre, entry.2.openErr.isSome = true) →
      ∃ lastErr', loadGo (pre ++ tail) lastErr = loadGo tail lastErr' := by
  intro pre
  induction pre with
  | nil => exact fun lastErr _ _ => ⟨lastErr, rfl⟩
  | cons p ps ih =>
    intro lastErr tail hopen
    obtain ⟨name, c⟩ := p
    have hp : c.openErr.isSome = true := hopen (name, c) (by simp)
    obtain ⟨err, herr⟩ := Option.isSome_iff_exists.mp hp
    have step : loadGo (((name, c) :: ps) ++ tail) lastErr
        = loadGo (ps ++ tail) (some (name ++ ": " ++ err)) := by
      simp only [List.cons_append]
      simp only [loadGo, herr]
    rw [step]
    exact ih _ tail (fun entry he => hopen entry (by simp [he]))

/-- C4 (amended): after any run of candidates that fail to open, the first
candidate that opens decides the whole load: if any required symbol fails to
resolve, the load aborts immediately with a symbol-resolution error naming
that candidate — later candidates are never tried; if all required symbols
resolve, that candidate is the loaded library.  Only failure to open a
candidate moves the resolver to the next one. -/
theorem C4_symbol_failure_is_terminal :
    (∀ (pre : List (String × CandidateLib)) (name : String)
        (c : CandidateLib) (rest : List (String × CandidateLib))
        (sym : String),
        (∀ entry ∈ pre, entry.2.openErr.isSome = true) →
        c.openErr = none →
        firstMissing c.symbols requiredSymbols = some sym →
        LibKrun.load (pre ++ (name, c) :: rest)
          = .error (.symbolFailed name sym))
    ∧ (∀ (pre : List (String × CandidateLib)) (name : String)
        (c : CandidateLib) (rest : List (String × CandidateLib)),
        (∀ entry ∈ pre, entry.2.openErr.isSome = true) →
        c.openErr = none →
        firstMissing c.symbols requiredSymbols = none →
        LibKrun.load (pre ++ (name, c) :: rest)
          = .ok (name, ⟨c.symbols "krun_add_disk2",
                        c.symbols "krun_set_root_disk_remount"⟩)) := by
  constructor
  · intro pre name c rest sym hpre hopen hmiss
    obtain ⟨lastErr', hskip⟩ :=
      loadGo_skips_open_failures pre none ((name, c) :: rest) hpre
    unfold LibKrun.load
    rw [hskip]
    simp only [loadGo, hopen, load_symbols, hmiss]
  · intro pre name c rest hpre hopen hmiss
    obtain ⟨lastErr', hskip⟩ :=
      loadGo_skips_open_failures pre none ((name, c) :: rest) hpre
    unfold LibKrun.load
    rw [hskip]
    simp only [loadGo, hopen, load_symbols, hmiss]

/-- Witness for C4's amended statement: one open-failing candidate followed
by one that opens with a missing required symbol. -/
theorem C4_symbol_failure_is_terminal_witness :
    LibKrun.load
      [("missing.so", ⟨some "not found", fun _ => true⟩),
       ("libkrun.so", ⟨none, fun s => !(s == "krun_set_exec")⟩),
       ("libkrun.dylib", ⟨none, fun _ => true⟩)]
      = .error (.symbolFailed "libkrun.so" "krun_set_exec") :=
  C4_symbol_failure_is_terminal.1
    [("missing.so", ⟨some "not found", fun _ => true⟩)]
    "libkrun.so" ⟨none, fun s => !(s == "krun_set_exec")⟩
    [("libkrun.dylib", ⟨none, fun _ => true⟩)] "krun_set_exec"
    (by intro entry he; simp at he; rw [he]; rfl) rfl rfl

/-- Unfolding of bind for the configuration monad. -/
theorem kmBind_def {α β : Type} (x : KM α) (f : α → KM β) (s : RunSt) :
    (x >>= f) s
      = match x s with
        | (s1, .ok a) => f a s1
        | (s1, .error e) => (s1, .error e) := rfl

theorem preservesFree_pure {α : Type} (a : α) :
    PreservesFreeCount (pure a : KM α) :=
  fun _ => rfl

theorem preservesFree_bind {α β : Type} {x : KM α} {f : α → KM β}
    (hx : PreservesFreeCount x) (hf : ∀ a, PreservesFreeCount (f a)) :
    PreservesFreeCount (x >>= f) := by
  intro s
  have hx' := hx s
  rw [kmBind_def]
  cases hxs : x s with
  | mk s1 r =>
    rw [hxs] at hx'
    cases r with
    | ok a =>
      have := hf a s1
      simp only []
      rw [this, hx']
    | error e =>
      simpa using hx'

theorem preservesFree_throw {α : Type} (e : RunErr) :
    PreservesFreeCount (kmThrow e : KM α) :=
  fun _ => rfl

theorem preservesFree_nativeCall (o : RunOracle) (n : KName)
    (hn : n ≠ KName.free) : PreservesFreeCount (nativeCall o n) := by
  intro s
  show ((⟨s.idx + 1, s.trace ++ [n]⟩ : RunSt).trace.count KName.free)
    = s.trace.count KName.free
  simp [List.count_append, List.count_cons, hn, Ne.symm hn]

theorem preservesFree_checkNul (field value : String) :
    PreservesFreeCount (checkNul field value) := by
  unfold checkNul
  by_cases h : hasNul value
  · rw [if_pos h]
    exact preservesFree_throw _
  · rw [if_neg h]
    exact preservesFree_pure _

theorem preservesFree_checkNulAll (field : String) (values : List String) :
    PreservesFreeCount (checkNulAll field values) := by
  induction values with
  | nil => exact preservesFree_pure _
  | cons v rest ih =>
    exact preservesFree_bind (preservesFree_checkNul field v) (fun _ => ih)

theorem preservesFree_ite {α : Type} {c : Prop} [Decidable c] {x y : KM α}
    (hx : PreservesFreeCount x) (hy : PreservesFreeCount y) :
    PreservesFreeCount (if c then x else y) := by
  by_cases h : c
  · rwa [if_pos h]
  · rwa [if_neg h]

theorem preservesFree_requireCap (present : Bool) (name : String) :
    PreservesFreeCount (requireCap present name) :=
  preservesFree_ite (preservesFree_pure _) (preservesFree_throw _)

theorem preservesFree_checkNulOpt (field : String) (v : Option String) :
    PreservesFreeCount (checkNulOpt field v) := by
  cases v with
  | some s => exact preservesFree_checkNul _ _
  | none => exact preservesFree_pure _

theorem preservesFree_rootStep (o : RunOracle) (root : RootSpec) :
    PreservesFreeCount (rootStep o root) := by
  cases root with
  | virtioFs rootfs =>
    exact preservesFree_bind (preservesFree_checkNul _ _)
      (fun _ => preservesFree_nativeCall o _ (by decide))
  | diskImage disk_path fmt ro dev fstype opts =>
    refine preservesFree_bind (preservesFree_requireCap _ _) (fun _ => ?_)
    refine preservesFree_bind (preservesFree_requireCap _ _) (fun _ => ?_)
    refine preservesFree_bind (preservesFree_checkNul _ _) (fun _ => ?_)
    refine preservesFree_bind (preservesFree_checkNul _ _) (fun _ => ?_)
    refine preservesFree_bind (preservesFree_nativeCall o _ (by decide))
      (fun _ => ?_)
    refine preservesFree_bind (preservesFree_checkNul _ _) (fun _ => ?_)
    refine preservesFree_bind (preservesFree_checkNulOpt _ _) (fun _ => ?_)
    refine preservesFree_bind (preservesFree_checkNulOpt _ _) (fun _ => ?_)
    exact preservesFree_nativeCall o _ (by decide)

theorem preservesFree_mountStep (o : RunOracle)
    (mounts : List (String × String)) :
    PreservesFreeCount (mountStep o mounts) := by
  induction mounts with
  | nil => exact preservesFree_pure _
  | cons m rest ih =>
    obtain ⟨tag, host_path⟩ := m
    exact preservesFree_bind (preservesFree_checkNul _ _)
      (fun _ => preservesFree_bind (preservesFree_checkNul _ _)
        (fun _ => preservesFree_bind
          (preservesFree_nativeCall o _ (by decide)) (fun _ => ih)))

theorem preservesFree_runBody (o : RunOracle) (spec : RunSpec) :
    PreservesFreeCount (runBody o spec) := by
  unfold runBody
  refine preservesFree_bind (preservesFree_nativeCall o _ (by decide))
    (fun _ => ?_)
  refine preservesFree_bind (preservesFree_rootStep o spec.root) (fun _ => ?_)
  refine preservesFree_bind (preservesFree_mountStep o spec.virtiofs_mounts)
    (fun _ => ?_)
  refine preservesFree_bind (preservesFree_checkNulAll _ _) (fun _ => ?_)
  refine preservesFree_bind (preservesFree_nativeCall o _ (by decide))
    (fun _ => ?_)
  refine preservesFree_bind (preservesFree_checkNul _ _) (fun _ => ?_)
  refine preservesFree_bind (preservesFree_nativeCall o _ (by decide))
    (fun _ => ?_)
  refine preservesFree_bind (preservesFree_checkNul _ _) (fun _ => ?_)
  refine preservesFree_bind (preservesFree_checkNulAll _ _) (fun _ => ?_)
  refine preservesFree_bind (preservesFree_checkNulAll _ _) (fun _ => ?_)
  refine preservesFree_bind (preservesFree_nativeCall o _ (by decide))
    (fun _ => ?_)
  exact preservesFree_nativeCall o _ (by decide)

/-- C3: for every `RunSpec` and every oracle — hence at every possible
failure point after the context was successfully created: a failing
VM-config call, root assignment (including a missing optional capability),
virtiofs mounts, port map, workdir, exec, start, or a NUL-byte marshaling
error — `LibKrun.run` emits `krun_free_ctx` exactly once, and it is the last
native call before the outcome (error or success) is returned; a created
context is never leaked on any exit path. -/
theorem C3_context_freed_exactly_once :
    ∀ (o : RunOracle) (spec : RunSpec),
      o.pathExists (rootPathOf spec.root) = true →
      0 ≤ o.createCtxRet →
      (LibKrun.run o spec).1.count KName.free = 1
        ∧ (LibKrun.run o spec).1.getLast? = some KName.free := by
  intro o spec hpath hctx
  unfold LibKrun.run
  rw [if_neg (by simp [hpath])]
  rw [if_neg (not_lt.mpr hctx)]
  cases hrb : runBody o spec ⟨0, [KName.create]⟩ with
  | mk s r =>
    have hp := preservesFree_runBody o spec ⟨0, [KName.create]⟩
    rw [hrb] at hp
    constructor
    · simp only [hrb]
      simp [List.count_append, hp, List.count_cons]
    · simp only [hrb]
      simp [List.getLast?_concat]

/-- Witness for C3: a concrete spec whose very first configuration call
fails; the trace still frees the context exactly once, at the end. -/
theorem C3_context_freed_exactly_once_witness :
    (LibKrun.run ⟨fun _ => true, 0, fun _ => -1, true, true⟩
        ⟨1, 512, .virtioFs "/rootfs", [("workspace", "/w")],
         [(18789, 18789)], ⟨"/bin/sh", ["-c"], ["HOME=/root"], "/"⟩⟩).1.count
      KName.free = 1
    ∧ (LibKrun.run ⟨fun _ => true, 0, fun _ => -1, true, true⟩
        ⟨1, 512, .virtioFs "/rootfs", [("workspace", "/w")],
         [(18789, 18789)], ⟨"/bin/sh", ["-c"], ["HOME=/root"], "/"⟩⟩).1.getLast?
      = some KName.free :=
  C3_context_freed_exactly_once ⟨fun _ => true, 0, fun _ => -1, true, true⟩
    ⟨1, 512, .virtioFs "/rootfs", [("workspace", "/w")],
     [(18789, 18789)], ⟨"/bin/sh", ["-c"], ["HOME=/root"], "/"⟩⟩
    rfl (by decide)

/-- Witness for C7 at concrete file names, including a mixed-case one. -/
theorem C7_disk_format_auto_detection_witness :
    resolve_disk_format .auto "ubuntu.QCOW2" = .ok .qcow2
    ∧ resolve_disk_format .auto "a.vmdk" = .ok .vmdk
    ∧ resolve_disk_format .auto "a.raw" = .ok .raw
    ∧ resolve_disk_format .auto "a"
        = .error "cannot auto-detect disk format from 'a'; pass --disk-format explicitly" :=
  ⟨C7_disk_format_auto_detection.1 "ubuntu.QCOW2" (Or.inl (by decide)),
   C7_disk_format_auto_detection.2.1 "a.vmdk" (by decide),
   C7_disk_format_auto_detection.2.2.1 "a.raw" (by decide),
   C7_disk_format_auto_detection.2.2.2.1 "a"
     (by decide) (by decide) (by decide) (by decide)⟩

/-- Witness for C8 at an identifier outside the documented set. -/
theorem C8_arch_mapping_witness :
    ubuntu_suffix_for_arch "unknown-arch" = none :=
  C8_arch_mapping.2.2.2.2.2.2.2.2.2.2.1 "unknown-arch" (by decide)

/-- Witness for C9's amended statement at the supported suffix `s390x`. -/
theorem C9_source_resolution_witness :
    resolve_sources "x86_64" ⟨"ubuntu", none, none, some "s390x", false⟩
      = .ok [⟨fallbackUrl "s390x", none⟩] :=
  C9_source_resolution.2.2.2.2.2 "x86_64"
    ⟨"ubuntu", none, none, some "s390x", false⟩ "s390x"
    rfl rfl rfl (by decide) (by decide)

end Clawfarm
